import Mathlib

/-
Verification of the Kairos heartbeat monitor core
(src/app/monitor.py and src/app/models.py).

Timestamps are modelled as natural numbers: seconds elapsed since an
arbitrary epoch at or before every event (the algorithm only adds
durations to timestamps and compares them, so any UTC instant maps to
such a number).  A heartbeat event of one service is fully determined
by its timestamp, since `HeartbeatEvent` carries only the (shared,
normalized) service name and the timestamp; per-service event lists are
therefore lists of timestamps.
-/

namespace Kairos

/-- Configuration, from `MonitorConfig` in src/app/models.py.
`expected_interval_seconds` is validated ≥ 1, `allowed_misses` ≥ 1 and
`tolerance_seconds` ≥ 0 by the pydantic field bounds; theorems take the
first two as hypotheses (the third is automatic for `Nat`). -/
structure MonitorConfig where
  expected_interval_seconds : Nat
  allowed_misses : Nat
  tolerance_seconds : Nat
deriving Repr, DecidableEq

/-- Alert record, from `Alert` in src/app/models.py. -/
structure Alert where
  service : String
  alert_at : Nat
  missed_count : Nat
  last_seen : Nat
deriving Repr, DecidableEq

/-- The `while expected_time + self.tolerance < current_time` loop of
`HeartbeatMonitor._detect_service_alerts` (src/app/monitor.py lines
263-290), as a fuel-indexed recursion.  State: the current
`expected_time`, `consecutive_misses`, `last_heartbeat_time` and the
alerts accumulated so far; the result is the loop-exit state.  With
`expected_interval_seconds ≥ 1` the Python loop performs at most
`currentTime` iterations, so any fuel with
`currentTime ≤ expectedTime + fuel` computes the loop exactly. -/
def missLoop (cfg : MonitorConfig) (service : String) (currentTime : Nat) :
    Nat → Nat → Nat → Nat → List Alert → Nat × Nat × List Alert
  | 0, _expectedTime, misses, last, acc => (misses, last, acc)
  | fuel + 1, expectedTime, misses, last, acc =>
    if expectedTime + cfg.tolerance_seconds < currentTime then
      if cfg.allowed_misses ≤ misses + 1 then
        missLoop cfg service currentTime fuel
          (expectedTime + cfg.expected_interval_seconds) 0 expectedTime
          (acc ++ [{ service := service, alert_at := expectedTime,
                     missed_count := misses + 1, last_seen := last }])
      else
        missLoop cfg service currentTime fuel
          (expectedTime + cfg.expected_interval_seconds) (misses + 1) last acc
    else
      (misses, last, acc)

/-- The `for current_event in sorted_events[1:]` loop of
`HeartbeatMonitor._detect_service_alerts` (src/app/monitor.py lines
258-298): arguments are `last_heartbeat_time`, `consecutive_misses` and
the remaining sorted events.  After the inner while loop the code
unconditionally resets `consecutive_misses = 0` and
`last_heartbeat_time = current_time`.  Trailing misses after the last
event are not evaluated (lines 300-304 are deliberately absent). -/
def detectFrom (cfg : MonitorConfig) (service : String) :
    Nat → Nat → List Nat → List Alert
  | _last, _misses, [] => []
  | last, misses, cur :: rest =>
    let r := missLoop cfg service cur (cur + 1)
      (last + cfg.expected_interval_seconds) misses last []
    r.2.2 ++ detectFrom cfg service cur 0 rest

/-- Model of `HeartbeatMonitor._detect_service_alerts` (src/app/monitor.py lines
226-305): return no alerts on an empty list, sort chronologically
(Python `sorted` is stable, and equal-timestamp events of one service
are identical, so any correct sort yields the same list), then start
tracking from the first heartbeat with zero consecutive misses. -/
def detectServiceAlerts (cfg : MonitorConfig) (service : String)
    (events : List Nat) : List Alert :=
  match events.insertionSort (· ≤ ·) with
  | [] => []
  | t0 :: rest => detectFrom cfg service t0 0 rest

/-- Loop invariant of the while loop: provided the threshold is at
least 1, the loop-head state always satisfies `misses < allowed_misses`
and `expectedTime = last + (misses + 1) * interval`; consequently every
alert the loop appends is emitted exactly at the threshold, exactly
`allowed_misses` intervals after its own `last_seen`, and from a window
whose tolerance-extended deadline closed strictly before `currentTime`. -/
theorem missLoop_mem (cfg : MonitorConfig) (service : String) (currentTime : Nat)
    (hA : 1 ≤ cfg.allowed_misses) :
    ∀ fuel expectedTime misses last acc,
      misses + 1 ≤ cfg.allowed_misses →
      expectedTime = last + (misses + 1) * cfg.expected_interval_seconds →
      ∀ a ∈ (missLoop cfg service currentTime fuel expectedTime misses last acc).2.2,
        a ∈ acc ∨
          (a.missed_count = cfg.allowed_misses ∧
            a.alert_at = a.last_seen + cfg.allowed_misses * cfg.expected_interval_seconds ∧
            a.alert_at + cfg.tolerance_seconds < currentTime) := by
  intro fuel
  induction fuel with
  | zero =>
    intro e m l acc hm he a ha
    simp only [missLoop] at ha
    exact Or.inl ha
  | succ fuel ih =>
    intro e m l acc hm he a ha
    simp only [missLoop] at ha
    by_cases hc : e + cfg.tolerance_seconds < currentTime
    · rw [if_pos hc] at ha
      by_cases halert : cfg.allowed_misses ≤ m + 1
      · rw [if_pos halert] at ha
        have hma : m + 1 = cfg.allowed_misses := le_antisymm hm halert
        rcases ih (e + cfg.expected_interval_seconds) 0 e _ (by omega) (by ring) a ha with
          h | h
        · rcases List.mem_append.1 h with h | h
          · exact Or.inl h
          · simp only [List.mem_singleton] at h
            subst h
            refine Or.inr ⟨hma, ?_, hc⟩
            simp only [he, hma]
        · exact Or.inr h
      · rw [if_neg halert] at ha
        rcases ih (e + cfg.expected_interval_seconds) (m + 1) l acc (by omega)
          (by rw [he]; ring) a ha with h | h
        · exact Or.inl h
        · exact Or.inr h
    · rw [if_neg hc] at ha
      exact Or.inl ha

/-- Every alert produced while scanning the remaining sorted events
(starting with zero consecutive misses) is a threshold alert whose
tolerance-extended window closed strictly before some later event of
the list. -/
theorem detectFrom_mem (cfg : MonitorConfig) (service : String)
    (hA : 1 ≤ cfg.allowed_misses) :
    ∀ lst last, ∀ a ∈ detectFrom cfg service last 0 lst,
      a.missed_count = cfg.allowed_misses ∧
      a.alert_at = a.last_seen + cfg.allowed_misses * cfg.expected_interval_seconds ∧
      ∃ cur ∈ lst, a.alert_at + cfg.tolerance_seconds < cur := by
  intro lst
  induction lst with
  | nil =>
    intro last a ha
    simp only [detectFrom, List.not_mem_nil] at ha
  | cons cur rest ih =>
    intro last a ha
    simp only [detectFrom] at ha
    rcases List.mem_append.1 ha with h | h
    · rcases missLoop_mem cfg service cur hA (cur + 1)
        (last + cfg.expected_interval_seconds) 0 last [] (by omega) (by ring) a h with
        h' | h'
      · simp at h'
      · exact ⟨h'.1, h'.2.1, cur, List.mem_cons_self _ _, h'.2.2⟩
    · obtain ⟨h1, h2, c, hc, h3⟩ := ih cur a h
      exact ⟨h1, h2, c, List.mem_cons_of_mem _ hc, h3⟩

/-- Every alert of `detectServiceAlerts`: threshold count, re-anchored
window arithmetic, and a bounding later heartbeat among the input
events. -/
theorem detect_mem (cfg : MonitorConfig) (service : String) (events : List Nat)
    (hA : 1 ≤ cfg.allowed_misses) :
    ∀ a ∈ detectServiceAlerts cfg service events,
      a.missed_count = cfg.allowed_misses ∧
      a.alert_at = a.last_seen + cfg.allowed_misses * cfg.expected_interval_seconds ∧
      ∃ cur ∈ events, a.alert_at + cfg.tolerance_seconds < cur := by
  intro a ha
  unfold detectServiceAlerts at ha
  cases hs : events.insertionSort (· ≤ ·) with
  | nil => rw [hs] at ha; simp at ha
  | cons t0 rest =>
    rw [hs] at ha
    obtain ⟨h1, h2, c, hc, h3⟩ := detectFrom_mem cfg service hA rest t0 a ha
    refine ⟨h1, h2, c, ?_, h3⟩
    have hmem : c ∈ events.insertionSort (· ≤ ·) := by
      rw [hs]; exact List.mem_cons_of_mem _ hc
    exact (List.perm_insertionSort _ events).subset hmem

/-- A member of a list of naturals is bounded by the fold of `max`
over the list (the maximum event timestamp). -/
theorem le_foldr_max (l : List Nat) : ∀ x ∈ l, x ≤ l.foldr max 0 := by
  induction l with
  | nil => simp
  | cons y t ih =>
    intro x hx
    rcases List.mem_cons.1 hx with rfl | hx
    · exact le_max_left _ _
    · exact le_trans (ih x hx) (le_max_right _ _)

/-- C1: for a single service with events at 10:00:00, 10:01:00 and
10:05:00 UTC (encoded as seconds of day: 36000, 36060, 36300) and
config expectedIntervalSeconds = 60, allowedMisses = 3,
toleranceSeconds = 0, the gap detector emits exactly one alert, with
alertAt = 10:04:00 (36240), missedCount = 3 and lastSeen = 10:01:00
(36060). -/
theorem scenario_a_exactly_one_alert :
    detectServiceAlerts ⟨60, 3, 0⟩ "email" [36000, 36060, 36300] =
      [{ service := "email", alert_at := 36240, missed_count := 3,
         last_seen := 36060 }] := by
  decide

/-- C2: for every event list and every valid config
(expectedIntervalSeconds ≥ 1, allowedMisses ≥ 1; toleranceSeconds ≥ 0
holds for every natural number), every alert emitted by the gap
detector has missedCount exactly equal to allowedMisses — the detector
never emits a below-threshold alert. -/
theorem alert_missed_count_eq_allowed (cfg : MonitorConfig) (service : String)
    (events : List Nat) (hI : 1 ≤ cfg.expected_interval_seconds)
    (hA : 1 ≤ cfg.allowed_misses) :
    ∀ a ∈ detectServiceAlerts cfg service events,
      a.missed_count = cfg.allowed_misses := by
  intro a ha
  exact (detect_mem cfg service events hA a ha).1

/-- Witness for C2 at the Scenario A input. -/
theorem alert_missed_count_eq_allowed_witness :
    Alert.missed_count
        { service := "email", alert_at := 36240, missed_count := 3,
          last_seen := 36060 } = (3 : Nat) :=
  alert_missed_count_eq_allowed ⟨60, 3, 0⟩ "email" [36000, 36060, 36300]
    (by decide) (by decide)
    { service := "email", alert_at := 36240, missed_count := 3, last_seen := 36060 }
    (by decide)

/-- C10: for every emitted alert, alertAt equals lastSeen plus
allowedMisses times expectedIntervalSeconds exactly — including second
and later alerts within the same outage, where lastSeen is the
re-anchored window boundary of the previous alert rather than a real
heartbeat. -/
theorem alert_at_eq_last_seen_plus_threshold (cfg : MonitorConfig)
    (service : String) (events : List Nat)
    (hI : 1 ≤ cfg.expected_interval_seconds) (hA : 1 ≤ cfg.allowed_misses) :
    ∀ a ∈ detectServiceAlerts cfg service events,
      a.alert_at = a.last_seen + cfg.allowed_misses * cfg.expected_interval_seconds := by
  intro a ha
  exact (detect_mem cfg service events hA a ha).2.1

/-- Witness for C10: the second alert of a long outage, whose lastSeen
36240 is the re-anchored boundary of the first alert, not a heartbeat. -/
theorem alert_at_eq_last_seen_plus_threshold_witness :
    Alert.alert_at
        { service := "email", alert_at := 36420, missed_count := 3,
          last_seen := 36240 } = 36240 + 3 * 60 :=
  alert_at_eq_last_seen_plus_threshold ⟨60, 3, 0⟩ "email" [36000, 36060, 36480]
    (by decide) (by decide)
    { service := "email", alert_at := 36420, missed_count := 3, last_seen := 36240 }
    (by decide)

/-- C4: the detector never alerts for misses after the last observed
heartbeat: every emitted alert has alertAt + toleranceSeconds strictly
earlier than the maximum event timestamp of the service, so an outage
still ongoing at the end of the batch produces no alert. -/
theorem alert_before_last_heartbeat (cfg : MonitorConfig) (service : String)
    (events : List Nat) (hI : 1 ≤ cfg.expected_interval_seconds)
    (hA : 1 ≤ cfg.allowed_misses) :
    ∀ a ∈ detectServiceAlerts cfg service events,
      a.alert_at + cfg.tolerance_seconds < events.foldr max 0 := by
  intro a ha
  obtain ⟨-, -, c, hc, h3⟩ := detect_mem cfg service events hA a ha
  exact lt_of_lt_of_le h3 (le_foldr_max events c hc)

/-- Witness for C4 at the Scenario A input. -/
theorem alert_before_last_heartbeat_witness :
    Alert.alert_at
          { service := "email", alert_at := 36240, missed_count := 3,
            last_seen := 36060 } + 0 <
      List.foldr max 0 [36000, 36060, 36300] :=
  alert_before_last_heartbeat ⟨60, 3, 0⟩ "email" [36000, 36060, 36300]
    (by decide) (by decide)
    { service := "email", alert_at := 36240, missed_count := 3, last_seen := 36060 }
    (by decide)

/-- C5: running the gap detector on any two permutations of the same
multiset of timestamps for one service yields identical alert lists —
input order never affects the output.  (Events of one service are
determined by their timestamps, so the stable tie-break of Python
`sorted` is immaterial: both runs sort to the same list.) -/
theorem detect_perm_invariant (cfg : MonitorConfig) (service : String)
    (l₁ l₂ : List Nat) (h : l₁.Perm l₂) :
    detectServiceAlerts cfg service l₁ = detectServiceAlerts cfg service l₂ := by
  unfold detectServiceAlerts
  have hs : l₁.insertionSort (· ≤ ·) = l₂.insertionSort (· ≤ ·) :=
    List.eq_of_perm_of_sorted
      ((List.perm_insertionSort _ l₁).trans
        (h.trans (List.perm_insertionSort _ l₂).symm))
      (List.sorted_insertionSort _ l₁) (List.sorted_insertionSort _ l₂)
  rw [hs]

/-- Witness for C5: the unsorted Scenario C input against its sorted
permutation. -/
theorem detect_perm_invariant_witness :
    detectServiceAlerts ⟨60, 3, 0⟩ "email" [36300, 36000, 36060, 36600] =
      detectServiceAlerts ⟨60, 3, 0⟩ "email" [36000, 36060, 36300, 36600] :=
  detect_perm_invariant ⟨60, 3, 0⟩ "email" _ _ (by decide)

/-- C9: for every service whose event list has fewer than two events,
the gap detector returns an empty alert list (and, being a total
function, does not fail). -/
theorem few_events_no_alerts (cfg : MonitorConfig) (service : String)
    (events : List Nat) (h : events.length < 2) :
    detectServiceAlerts cfg service events = [] := by
  match events, h with
  | [], _ => rfl
  | [t], _ =>
    simp [detectServiceAlerts, detectFrom, List.insertionSort, List.orderedInsert]

/-- Witness for C9 at a one-event list. -/
theorem few_events_no_alerts_witness :
    detectServiceAlerts ⟨60, 3, 0⟩ "email" [36000] = [] :=
  few_events_no_alerts ⟨60, 3, 0⟩ "email" [36000] (by decide)

/-- Number of iterations the while loop performs from expected time
`e` before heartbeat `cur`: the count of `j ≥ 0` with
`e + j * interval + tolerance < cur`, in closed form. -/
def numMisses (cfg : MonitorConfig) (e cur : Nat) : Nat :=
  (cur - (e + cfg.tolerance_seconds) + cfg.expected_interval_seconds - 1) /
    cfg.expected_interval_seconds

/-- Alerts the detector emits for the single gap between consecutive
heartbeats `a < b`: one per full `allowed_misses`-block of missed
windows. -/
def gapAlertCount (cfg : MonitorConfig) (a b : Nat) : Nat :=
  numMisses cfg (a + cfg.expected_interval_seconds) b / cfg.allowed_misses

/-- Total alerts over the remaining events, gap by gap. -/
def totalGapAlerts (cfg : MonitorConfig) : Nat → List Nat → Nat
  | _, [] => 0
  | last, cur :: rest => gapAlertCount cfg last cur + totalGapAlerts cfg cur rest

/-- Number of whole expected windows missed inside the gap between
heartbeats `a` and `b`: the count of window indices `k ≥ 1` whose
tolerance-extended deadline `a + k * interval + tolerance` passes
strictly before `b`. -/
def wholeMissedWindows (cfg : MonitorConfig) (a b : Nat) : Nat :=
  ((Finset.Icc 1 b).filter
    (fun k => a + k * cfg.expected_interval_seconds + cfg.tolerance_seconds < b)).card

/-- Stepping the expected time by one interval removes exactly one
pending miss, while the condition still holds. -/
theorem numMisses_step (cfg : MonitorConfig) (e cur : Nat)
    (hI : 1 ≤ cfg.expected_interval_seconds)
    (hc : e + cfg.tolerance_seconds < cur) :
    numMisses cfg e cur =
      numMisses cfg (e + cfg.expected_interval_seconds) cur + 1 := by
  unfold numMisses
  set I := cfg.expected_interval_seconds with hIdef
  set d := cur - (e + cfg.tolerance_seconds) with hd
  have hd1 : 1 ≤ d := by omega
  have h1 : d + I - 1 = (d - 1) + I := by omega
  have h2 : cur - (e + I + cfg.tolerance_seconds) = d - I := by omega
  rw [h1, h2, Nat.add_div_right _ (by omega : 0 < I)]
  rcases le_or_lt I d with hle | hlt
  · have : d - I + I - 1 = d - 1 := by omega
    rw [this]
  · have h3 : d - I = 0 := by omega
    rw [h3]
    have h4 : (0 + I - 1) / I = 0 := Nat.div_eq_of_lt (by omega)
    have h5 : (d - 1) / I = 0 := Nat.div_eq_of_lt (by omega)
    rw [h4, h5]

/-- If the loop condition already fails, no misses are pending. -/
theorem numMisses_eq_zero (cfg : MonitorConfig) (e cur : Nat)
    (hI : 1 ≤ cfg.expected_interval_seconds)
    (hc : ¬ e + cfg.tolerance_seconds < cur) :
    numMisses cfg e cur = 0 := by
  unfold numMisses
  have : cur - (e + cfg.tolerance_seconds) = 0 := by omega
  rw [this]
  exact Nat.div_eq_of_lt (by omega)

/-- Closed form for the number of alerts the while loop emits: with
sufficient fuel, starting below the threshold, the output extends the
accumulator by `(misses + pending) / allowed_misses` alerts, where
`pending` is the number of windows still to elapse before `currentTime`. -/
theorem missLoop_length (cfg : MonitorConfig) (service : String) (currentTime : Nat)
    (hI : 1 ≤ cfg.expected_interval_seconds) (hA : 1 ≤ cfg.allowed_misses) :
    ∀ fuel expectedTime misses last acc,
      misses + 1 ≤ cfg.allowed_misses →
      currentTime ≤ expectedTime + fuel →
      ((missLoop cfg service currentTime fuel expectedTime misses last acc).2.2).length =
        acc.length +
          (misses + numMisses cfg expectedTime currentTime) / cfg.allowed_misses := by
  intro fuel
  induction fuel with
  | zero =>
    intro e m l acc hm hfuel
    simp only [missLoop]
    rw [numMisses_eq_zero cfg e currentTime hI (by omega)]
    rw [Nat.div_eq_of_lt (by omega)]
    rfl
  | succ fuel ih =>
    intro e m l acc hm hfuel
    simp only [missLoop]
    by_cases hc : e + cfg.tolerance_seconds < currentTime
    · rw [if_pos hc, numMisses_step cfg e currentTime hI hc]
      by_cases halert : cfg.allowed_misses ≤ m + 1
      · rw [if_pos halert]
        have hma : m + 1 = cfg.allowed_misses := le_antisymm hm halert
        rw [ih (e + cfg.expected_interval_seconds) 0 e _ (by omega) (by omega)]
        simp only [List.length_append, List.length_singleton, Nat.zero_add]
        have : m + (numMisses cfg (e + cfg.expected_interval_seconds) currentTime + 1) =
            numMisses cfg (e + cfg.expected_interval_seconds) currentTime +
              cfg.allowed_misses := by omega
        rw [this, Nat.add_div_right _ (by omega : 0 < cfg.allowed_misses)]
        omega
      · rw [if_neg halert]
        rw [ih (e + cfg.expected_interval_seconds) (m + 1) l acc (by omega) (by omega)]
        have : m + 1 + numMisses cfg (e + cfg.expected_interval_seconds) currentTime =
            m + (numMisses cfg (e + cfg.expected_interval_seconds) currentTime + 1) := by
          omega
        rw [this]
    · rw [if_neg hc]
      rw [numMisses_eq_zero cfg e currentTime hI hc]
      rw [Nat.div_eq_of_lt (by omega)]
      rfl

/-- The length of the detector output over the remaining sorted events
is the gap-by-gap sum of per-gap alert counts. -/
theorem detectFrom_length (cfg : MonitorConfig) (service : String)
    (hI : 1 ≤ cfg.expected_interval_seconds) (hA : 1 ≤ cfg.allowed_misses) :
    ∀ lst last,
      (detectFrom cfg service last 0 lst).length = totalGapAlerts cfg last lst := by
  intro lst
  induction lst with
  | nil => intro last; rfl
  | cons cur rest ih =>
    intro last
    simp only [detectFrom, totalGapAlerts, List.length_append]
    rw [missLoop_length cfg service cur hI hA (cur + 1)
      (last + cfg.expected_interval_seconds) 0 last [] (by omega) (by omega)]
    rw [ih cur]
    simp only [List.length_nil, gapAlertCount, Nat.zero_add]

/-- The counted missed windows of the gap between heartbeats `a` and
`b` coincide with the closed-form pending-miss count the loop works
through. -/
theorem wholeMissedWindows_eq_numMisses (cfg : MonitorConfig) (a b : Nat)
    (hI : 1 ≤ cfg.expected_interval_seconds) :
    wholeMissedWindows cfg a b =
      numMisses cfg (a + cfg.expected_interval_seconds) b := by
  set I := cfg.expected_interval_seconds with hIdef
  set tol := cfg.tolerance_seconds with htol
  set D := b - (a + tol) with hD
  have hRHS : numMisses cfg (a + I) b = (D - 1) / I := by
    unfold numMisses
    rw [← hIdef, ← htol]
    have h2 : b - (a + I + tol) = D - I := by omega
    rw [h2]
    rcases le_or_lt I D with hle | hlt
    · have h3 : D - I + I - 1 = D - 1 := by omega
      rw [h3]
    · have h3 : D - I = 0 := by omega
      rw [h3, Nat.div_eq_of_lt (by omega), Nat.div_eq_of_lt (by omega)]
  rw [hRHS]
  unfold wholeMissedWindows
  rw [← hIdef, ← htol]
  have hset : (Finset.Icc 1 b).filter (fun k => a + k * I + tol < b) =
      Finset.Icc 1 ((D - 1) / I) := by
    ext k
    simp only [Finset.mem_filter, Finset.mem_Icc]
    constructor
    · rintro ⟨⟨hk1, _⟩, hcond⟩
      refine ⟨hk1, ?_⟩
      rw [Nat.le_div_iff_mul_le (by omega : 0 < I)]
      omega
    · rintro ⟨hk1, hkd⟩
      rw [Nat.le_div_iff_mul_le (by omega : 0 < I)] at hkd
      have hkI : k ≤ k * I := Nat.le_mul_of_pos_right k (by omega)
      exact ⟨⟨hk1, by omega⟩, by omega⟩
  rw [hset, Nat.card_Icc]
  omega

/-- C3: for one service with exactly two heartbeats `a < b` and
tolerance 0, the detector emits exactly
`⌊wholeMissedWindows / allowedMisses⌋` alerts for the gap, each
reporting missedCount = allowedMisses; the remainder misses (the
division's residue) yield no alert since the heartbeat at `b` resets
the counter. -/
theorem long_gap_alert_count (cfg : MonitorConfig) (service : String)
    (a b : Nat) (hI : 1 ≤ cfg.expected_interval_seconds)
    (hA : 1 ≤ cfg.allowed_misses) (hT : cfg.tolerance_seconds = 0)
    (hab : a < b) :
    (detectServiceAlerts cfg service [a, b]).length =
        wholeMissedWindows cfg a b / cfg.allowed_misses ∧
      ∀ x ∈ detectServiceAlerts cfg service [a, b],
        x.missed_count = cfg.allowed_misses := by
  constructor
  · have hsort : ([a, b] : List Nat).insertionSort (· ≤ ·) = [a, b] := by
      simp [List.insertionSort, List.orderedInsert, Nat.le_of_lt hab]
    unfold detectServiceAlerts
    rw [hsort]
    rw [detectFrom_length cfg service hI hA [b] a]
    simp only [totalGapAlerts, Nat.add_zero]
    rw [gapAlertCount, wholeMissedWindows_eq_numMisses cfg a b hI]
  · intro x hx
    exact (detect_mem cfg service [a, b] hA x hx).1

/-- Witness for C3: a gap of 420 s at interval 60 s spans 6 whole
missed windows, yielding 6 / 3 = 2 alerts. -/
theorem long_gap_alert_count_witness :
    ((detectServiceAlerts ⟨60, 3, 0⟩ "email" [36060, 36480]).length =
        wholeMissedWindows ⟨60, 3, 0⟩ 36060 36480 /
          (⟨60, 3, 0⟩ : MonitorConfig).allowed_misses ∧
      ∀ x ∈ detectServiceAlerts ⟨60, 3, 0⟩ "email" [36060, 36480],
        x.missed_count = (⟨60, 3, 0⟩ : MonitorConfig).allowed_misses) :=
  long_gap_alert_count ⟨60, 3, 0⟩ "email" 36060 36480 (by decide) (by decide)
    (by decide) (by decide)

/-- Raising the alert threshold or the tolerance can only shrink the
number of alerts in a single gap. -/
theorem gapAlertCount_le (cfg cfg' : MonitorConfig) (a b : Nat)
    (hA : 1 ≤ cfg.allowed_misses)
    (hIeq : cfg'.expected_interval_seconds = cfg.expected_interval_seconds)
    (hAle : cfg.allowed_misses ≤ cfg'.allowed_misses)
    (hTle : cfg.tolerance_seconds ≤ cfg'.tolerance_seconds) :
    gapAlertCount cfg' a b ≤ gapAlertCount cfg a b := by
  unfold gapAlertCount numMisses
  rw [hIeq]
  calc (b - (a + cfg.expected_interval_seconds + cfg'.tolerance_seconds) +
          cfg.expected_interval_seconds - 1) / cfg.expected_interval_seconds /
        cfg'.allowed_misses
      ≤ (b - (a + cfg.expected_interval_seconds + cfg.tolerance_seconds) +
          cfg.expected_interval_seconds - 1) / cfg.expected_interval_seconds /
        cfg'.allowed_misses := by
        apply Nat.div_le_div_right
        apply Nat.div_le_div_right
        omega
    _ ≤ (b - (a + cfg.expected_interval_seconds + cfg.tolerance_seconds) +
          cfg.expected_interval_seconds - 1) / cfg.expected_interval_seconds /
        cfg.allowed_misses := Nat.div_le_div_left hAle (by omega)

/-- Gap-by-gap antitonicity lifts to the whole scan. -/
theorem totalGapAlerts_le (cfg cfg' : MonitorConfig)
    (hA : 1 ≤ cfg.allowed_misses)
    (hIeq : cfg'.expected_interval_seconds = cfg.expected_interval_seconds)
    (hAle : cfg.allowed_misses ≤ cfg'.allowed_misses)
    (hTle : cfg.tolerance_seconds ≤ cfg'.tolerance_seconds) :
    ∀ lst last, totalGapAlerts cfg' last lst ≤ totalGapAlerts cfg last lst := by
  intro lst
  induction lst with
  | nil => intro last; exact Nat.le_refl 0
  | cons cur rest ih =>
    intro last
    simp only [totalGapAlerts]
    exact Nat.add_le_add (gapAlertCount_le cfg cfg' last cur hA hIeq hAle hTle)
      (ih cur)

/-- C6: for every fixed event set, replacing allowedMisses by any
larger value never increases the number of alerts emitted, and
replacing toleranceSeconds by any larger value never increases the
number of alerts emitted (both replacements at once, with the interval
unchanged, which implies each separately). -/
theorem alert_count_antitone (cfg cfg' : MonitorConfig) (service : String)
    (events : List Nat)
    (hI : 1 ≤ cfg.expected_interval_seconds) (hA : 1 ≤ cfg.allowed_misses)
    (hIeq : cfg'.expected_interval_seconds = cfg.expected_interval_seconds)
    (hAle : cfg.allowed_misses ≤ cfg'.allowed_misses)
    (hTle : cfg.tolerance_seconds ≤ cfg'.tolerance_seconds) :
    (detectServiceAlerts cfg' service events).length ≤
      (detectServiceAlerts cfg service events).length := by
  unfold detectServiceAlerts
  cases hs : events.insertionSort (· ≤ ·) with
  | nil => exact Nat.le_refl 0
  | cons t0 rest =>
    rw [detectFrom_length cfg service hI hA rest t0]
    rw [detectFrom_length cfg' service (by omega) (by omega) rest t0]
    exact totalGapAlerts_le cfg cfg' hA hIeq hAle hTle rest t0

/-- Witness for C6: raising the threshold from 3 to 4 and the
tolerance from 0 to 30 removes the Scenario A alert. -/
theorem alert_count_antitone_witness :
    (detectServiceAlerts ⟨60, 4, 30⟩ "email" [36000, 36060, 36300]).length ≤
      (detectServiceAlerts ⟨60, 3, 0⟩ "email" [36000, 36060, 36300]).length :=
  alert_count_antitone ⟨60, 3, 0⟩ ⟨60, 4, 30⟩ "email" [36000, 36060, 36300]
    (by decide) (by decide) (by decide) (by decide) (by decide)

/-
Validation pipeline (`HeartbeatMonitor._validate_events` and
`HeartbeatMonitor._categorize_validation_error`, src/app/monitor.py
lines 126-209, together with the `HeartbeatEvent` pydantic model of
src/app/models.py lines 13-62).

A raw record is modelled by its two relevant fields, each either
absent or a string.  Python strings are modelled through the character
list underlying the Lean string; `str.strip` and `str.lower` are
modelled explicitly on those lists (ASCII semantics, which covers the
identifier alphabet the model accepts).  Timestamp parsing is pydantic
library code external to the repository, so the pipeline is modelled
generically over an arbitrary parser `String → Option Nat`; every
theorem below holds for all parsers.
-/

/-- Python `str.strip`: drop leading and trailing whitespace. -/
def stripChars (l : List Char) : List Char :=
  ((l.dropWhile Char.isWhitespace).reverse.dropWhile Char.isWhitespace).reverse

/-- Python `str.lower` on an ASCII letter. -/
def lowerChar (c : Char) : Char :=
  if c.isUpper then Char.ofNat (c.toNat + 32) else c

/-- One character of the `^[a-zA-Z0-9_-]+$` pattern of the `service`
field (src/app/models.py line 38). -/
def isServiceChar (c : Char) : Bool :=
  c.isAlphanum || c = '_' || c = '-'

/-- Model of the `HeartbeatEvent.validate_service` normalization
(src/app/models.py line 62): `v.strip().lower()`. -/
def normalizeService (s : String) : String :=
  ⟨(stripChars s.data).map lowerChar⟩

/-- Acceptance of a present `service` value: the `validate_service`
validator requires a non-blank string (src/app/models.py lines 60-61),
then the field constraints `min_length=1`, `max_length=100` and the
identifier pattern apply to the normalized value (src/app/models.py
lines 33-39). -/
def validServiceName (s : String) : Bool :=
  !(stripChars s.data).isEmpty &&
    (normalizeService s).data.length ≤ 100 &&
    (normalizeService s).data.all isServiceChar

/-- A raw input record: each expected field is absent or carries a raw
string value. -/
structure RawEvent where
  service : Option String
  timestamp : Option String
deriving Repr, DecidableEq

/-- A validated heartbeat event (`HeartbeatEvent`, src/app/models.py):
normalized service identifier and UTC instant in seconds. -/
structure HeartbeatEvent where
  service : String
  timestamp : Nat
deriving Repr, DecidableEq

/-- Construction of `HeartbeatEvent(**raw_event)` (src/app/monitor.py
line 149): `none` when pydantic raises a `ValidationError`, otherwise
the validated event with normalized service and parsed timestamp. -/
def parseHeartbeatEvent (parseTimestamp : String → Option Nat)
    (r : RawEvent) : Option HeartbeatEvent :=
  match r.service, r.timestamp with
  | some s, some ts =>
    if validServiceName s then
      match parseTimestamp ts with
      | some t => some { service := normalizeService s, timestamp := t }
      | none => none
    else
      none
  | _, _ => none

/-- Model of `HeartbeatMonitor._categorize_validation_error` (src/app/monitor.py
lines 176-209): field-presence checks first, then the `in [None, '']`
empty checks, then the format checks driven by the first pydantic
error, whose field is `service` whenever the service value is invalid
(pydantic reports errors in field declaration order). -/
def categorizeValidationError (parseTimestamp : String → Option Nat)
    (r : RawEvent) : String :=
  match r.service with
  | none => "missing_service"
  | some s =>
    match r.timestamp with
    | none => "missing_timestamp"
    | some ts =>
      if s = "" then "empty_service"
      else if ts = "" then "empty_timestamp"
      else if !validServiceName s then "invalid_service_format"
      else "invalid_timestamp_format"

/-- Increment of `skipped_reasons[reason]` on the insertion-ordered
counter map (`defaultdict(int)`, src/app/monitor.py line 154). -/
def bump (reasons : List (String × Nat)) (key : String) : List (String × Nat) :=
  match reasons with
  | [] => [(key, 1)]
  | (k, n) :: rest =>
    if k = key then (k, n + 1) :: rest else (k, n) :: bump rest key

/-- Model of `ValidationResult` (src/app/models.py lines 103-125), with the
insertion-ordered reason counters. -/
structure ValidationResult where
  total_events : Nat
  valid_events : Nat
  invalid_events : Nat
  errors : List String
  skipped_reasons : List (String × Nat)
deriving Repr, DecidableEq

/-- The `for idx, raw_event in enumerate(raw_events)` loop of
`HeartbeatMonitor._validate_events` (src/app/monitor.py lines
146-164): a successful construction appends to the valid events, a
rejection appends one formatted error message and bumps exactly one
reason counter.  (The pydantic message text after the reason is
library output and is not modelled.) -/
def validateLoop (parseTimestamp : String → Option Nat) :
    List RawEvent → Nat → List HeartbeatEvent → List String →
      List (String × Nat) →
      List HeartbeatEvent × List String × List (String × Nat)
  | [], _, vs, es, sk => (vs, es, sk)
  | r :: rest, idx, vs, es, sk =>
    match parseHeartbeatEvent parseTimestamp r with
    | some ev => validateLoop parseTimestamp rest (idx + 1) (vs ++ [ev]) es sk
    | none =>
      let reason := categorizeValidationError parseTimestamp r
      validateLoop parseTimestamp rest (idx + 1) vs
        (es ++ ["Event " ++ toString idx ++ ": " ++ reason]) (bump sk reason)

/-- Model of `HeartbeatMonitor._validate_events` (src/app/monitor.py lines
126-174): run the loop, then assemble the `ValidationResult` with
`invalid_events = len(raw_events) - len(valid_events)`. -/
def validateEvents (parseTimestamp : String → Option Nat)
    (raws : List RawEvent) : List HeartbeatEvent × ValidationResult :=
  let r := validateLoop parseTimestamp raws 0 [] [] []
  (r.1,
    { total_events := raws.length,
      valid_events := r.1.length,
      invalid_events := raws.length - r.1.length,
      errors := r.2.1,
      skipped_reasons := r.2.2 })

/-- Sum of the values of the reason counters. -/
def sumCounts (reasons : List (String × Nat)) : Nat :=
  (reasons.map Prod.snd).sum

/-- Bumping a reason raises the counter sum by exactly one. -/
theorem sumCounts_bump (reasons : List (String × Nat)) (key : String) :
    sumCounts (bump reasons key) = sumCounts reasons + 1 := by
  induction reasons with
  | nil => rfl
  | cons p rest ih =>
    obtain ⟨k, n⟩ := p
    simp only [bump]
    by_cases h : k = key
    · rw [if_pos h]
      simp only [sumCounts, List.map_cons, List.sum_cons]
      omega
    · rw [if_neg h]
      simp only [sumCounts, List.map_cons, List.sum_cons] at ih ⊢
      omega

/-- Each record of the batch contributes exactly one unit: either one
accepted event or one counted rejection. -/
theorem validateLoop_counts (parseTimestamp : String → Option Nat) :
    ∀ (raws : List RawEvent) (idx : Nat) (vs : List HeartbeatEvent)
      (es : List String) (sk : List (String × Nat)),
      (validateLoop parseTimestamp raws idx vs es sk).1.length +
          sumCounts (validateLoop parseTimestamp raws idx vs es sk).2.2 =
        vs.length + sumCounts sk + raws.length := by
  intro raws
  induction raws with
  | nil => intro idx vs es sk; rfl
  | cons r rest ih =>
    intro idx vs es sk
    simp only [validateLoop]
    cases hp : parseHeartbeatEvent parseTimestamp r with
    | some ev =>
      rw [ih (idx + 1) (vs ++ [ev]) es sk]
      simp only [List.length_append, List.length_cons, List.length_nil]
      omega
    | none =>
      rw [ih (idx + 1) vs _ (bump sk (categorizeValidationError parseTimestamp r))]
      rw [sumCounts_bump]
      simp only [List.length_cons]
      omega

/-- C7: for every input batch and every timestamp parser, the
`ValidationResult` satisfies validEvents + invalidEvents ==
totalEvents, totalEvents equals the input length, and the sum of the
values of skippedReasons equals invalidEvents. -/
theorem validation_counts_reconcile (parseTimestamp : String → Option Nat)
    (raws : List RawEvent) :
    (validateEvents parseTimestamp raws).2.valid_events +
          (validateEvents parseTimestamp raws).2.invalid_events =
        (validateEvents parseTimestamp raws).2.total_events ∧
      (validateEvents parseTimestamp raws).2.total_events = raws.length ∧
      sumCounts (validateEvents parseTimestamp raws).2.skipped_reasons =
        (validateEvents parseTimestamp raws).2.invalid_events := by
  have h := validateLoop_counts parseTimestamp raws 0 [] [] []
  simp only [List.length_nil, sumCounts, List.map_nil, List.sum_nil,
    Nat.zero_add] at h
  unfold validateEvents
  refine ⟨?_, rfl, ?_⟩
  · simp only []
    omega
  · simp only [sumCounts] at h ⊢
    omega

/-- C8 counterexample: the record whose service is " "
(whitespace-only, hence blank after trimming) with a well-formed
timestamp is rejected by validation, yet
`_categorize_validation_error` returns invalid_service_format, not
EMPTY_SERVICE: its empty check `raw_event.get('service') in [None, '']`
does not cover whitespace-only strings, so the error falls through to
the format checks. -/
theorem whitespace_service_not_empty_service :
    parseHeartbeatEvent (fun _ => some 36000)
        { service := some " ", timestamp := some "2025-08-04T10:00:00Z" } =
        none ∧
      categorizeValidationError (fun _ => some 36000)
          { service := some " ", timestamp := some "2025-08-04T10:00:00Z" } =
        "invalid_service_format" ∧
      categorizeValidationError (fun _ => some 36000)
          { service := some " ", timestamp := some "2025-08-04T10:00:00Z" } ≠
        "empty_service" := by
  decide

/-- C8 (amended): for every timestamp parser, validation of a record
is total and maps each rejected record to exactly one rejection
reason, chosen by priority — missing-field checks before empty checks
before format checks; a record whose service field is present but
exactly the empty string is categorized EMPTY_SERVICE, while a
present, non-empty service that is blank only after trimming fails
the validator and is categorized INVALID_SERVICE_FORMAT; and when the
service is acceptable the rejection is attributed to the timestamp,
which indeed failed to parse. -/
theorem categorization_priority (parseTimestamp : String → Option Nat)
    (r : RawEvent) (hrej : parseHeartbeatEvent parseTimestamp r = none) :
    (r.service = none →
        categorizeValidationError parseTimestamp r = "missing_service") ∧
      (∀ s, r.service = some s → r.timestamp = none →
        categorizeValidationError parseTimestamp r = "missing_timestamp") ∧
      (∀ s ts, r.service = some s → r.timestamp = some ts → s = "" →
        categorizeValidationError parseTimestamp r = "empty_service") ∧
      (∀ s ts, r.service = some s → r.timestamp = some ts → s ≠ "" → ts = "" →
        categorizeValidationError parseTimestamp r = "empty_timestamp") ∧
      (∀ s ts, r.service = some s → r.timestamp = some ts → s ≠ "" → ts ≠ "" →
        validServiceName s = false →
        categorizeValidationError parseTimestamp r = "invalid_service_format") ∧
      (∀ s ts, r.service = some s → r.timestamp = some ts → s ≠ "" → ts ≠ "" →
        validServiceName s = true →
        categorizeValidationError parseTimestamp r = "invalid_timestamp_format" ∧
          parseTimestamp ts = none) := by
  obtain ⟨os, ots⟩ := r
  refine ⟨?_, ?_, ?_, ?_, ?_, ?_⟩
  · intro hs
    cases hs
    rfl
  · intro s hs hts
    cases hs
    cases hts
    rfl
  · intro s ts hs hts hse
    cases hs
    cases hts
    subst hse
    rfl
  · intro s ts hs hts hse hte
    cases hs
    cases hts
    subst hte
    simp [categorizeValidationError, if_neg hse]
  · intro s ts hs hts hse hte hsv
    cases hs
    cases hts
    simp only [categorizeValidationError, if_neg hse, if_neg hte, hsv,
      Bool.not_false, if_pos]
  · intro s ts hs hts hse hte hsv
    cases hs
    cases hts
    constructor
    · simp only [categorizeValidationError, if_neg hse, if_neg hte, hsv,
        Bool.not_true, if_neg]
      simp
    · simp only [parseHeartbeatEvent, hsv, if_pos] at hrej
      cases hpt : parseTimestamp ts with
      | some t => rw [hpt] at hrej; simp at hrej
      | none => rfl

/-- Witness for the amended C8: the exactly-empty service is
categorized EMPTY_SERVICE. -/
theorem categorization_priority_witness :
    categorizeValidationError (fun _ => some 36000)
        { service := some "", timestamp := some "2025-08-04T10:00:00Z" } =
      "empty_service" :=
  (categorization_priority (fun _ => some 36000)
      { service := some "", timestamp := some "2025-08-04T10:00:00Z" }
      (by decide)).2.2.1 "" "2025-08-04T10:00:00Z" rfl rfl rfl

end Kairos
